import Mathlib

/-!
Shallow embedding of the Nightshade consensus core
(src/core/nightshadev2/src/nightshade.rs) and verification of its
specification.

Rust panics (out-of-bounds vector indexing, the commit-consistency
assertion) are modelled explicitly: state-machine operations return
`Except Fault` and a `Fault.outOfBounds` / `Fault.assertViolation`
result marks the corresponding panic.
-/

/-- The unsigned portion of a consensus state: an endorsed authority and two
confidence counters (`BareState` in the source). -/
structure BareState where
  endorses : Nat
  confidence0 : Int
  confidence1 : Int
deriving DecidableEq

/-- `BareState::new`: a fresh real state endorsing `endorses`. -/
def BareState.new (endorses : Nat) : BareState := ⟨endorses, 0, 0⟩

/-- `BareState::empty`: the sentinel for no state received yet. -/
def BareState.empty : BareState := ⟨0, -1, -1⟩

/-- The total order `Ord for BareState` from the source: higher `confidence0`
wins, then lower `endorses` wins, then higher `confidence1` wins. -/
def bareCmp (a b : BareState) : Ordering :=
  if a.confidence0 ≠ b.confidence0 then
    if b.confidence0 < a.confidence0 then Ordering.gt else Ordering.lt
  else if a.endorses ≠ b.endorses then
    if a.endorses < b.endorses then Ordering.gt else Ordering.lt
  else if a.confidence1 ≠ b.confidence1 then
    if b.confidence1 < a.confidence1 then Ordering.gt else Ordering.lt
  else Ordering.eq

/-- Boolean strict-greater test on bare states (`>` in the source). -/
def bareGtB (a b : BareState) : Bool := decide (bareCmp a b = Ordering.gt)

/-- Propositional version of `a ≤ b` in the bare-state total order. -/
def BareState.le (a b : BareState) : Prop :=
  a.confidence0 < b.confidence0 ∨
    (a.confidence0 = b.confidence0 ∧
      (b.endorses < a.endorses ∨
        (b.endorses = a.endorses ∧ a.confidence1 ≤ b.confidence1)))

/-- Propositional version of `a < b` in the bare-state total order. -/
def BareState.lt (a b : BareState) : Prop :=
  a.confidence0 < b.confidence0 ∨
    (a.confidence0 = b.confidence0 ∧
      (b.endorses < a.endorses ∨
        (b.endorses = a.endorses ∧ a.confidence1 < b.confidence1)))

/-- `SignedState`: an (aggregated) signature plus the bare states it signs.
The source leaves signature aggregation as a stub that keeps the signature
at `0` and pushes bare states into `parent`. -/
structure SignedState where
  signature : Nat
  parent : List BareState
deriving DecidableEq

/-- `SignedState::new`. -/
def SignedState.new : SignedState := ⟨0, []⟩

/-- `State`: a bare state plus the two optional proofs. -/
structure State where
  bare_state : BareState
  proof0 : Option SignedState
  proof1 : Option SignedState
deriving DecidableEq

/-- `State::new`. -/
def State.new (endorses : Nat) : State := ⟨BareState.new endorses, none, none⟩

/-- `State::empty`. -/
def State.empty : State := ⟨BareState.empty, none, none⟩

/-- `State::increase_confidence`: bump `confidence0`, install the supplied
proof as `proof0`, keep `confidence1` and `proof1`. -/
def State.increase_confidence (s : State) (proof : SignedState) : State :=
  ⟨⟨s.bare_state.endorses, s.bare_state.confidence0 + 1, s.bare_state.confidence1⟩,
    some proof, s.proof1⟩

/-- `COMMIT_THRESHOLD`. -/
def COMMIT_THRESHOLD : Int := 3

/-- `State::can_commit`: `confidence0 >= confidence1 + COMMIT_THRESHOLD`. -/
def State.can_commit (s : State) : Bool :=
  decide (s.bare_state.confidence1 + COMMIT_THRESHOLD ≤ s.bare_state.confidence0)

/-- `State::verify`: the source stub always returns `true`. -/
def State.verify (_ : State) : Bool := true

/-- `State::endorses`. -/
def State.endorses (s : State) : Nat := s.bare_state.endorses

/-- `std::cmp::max` specialised to `State` with the bare-state order
(`max` returns the second argument unless the first is strictly greater). -/
def stateMax (a b : State) : State :=
  if bareCmp a.bare_state b.bare_state = Ordering.gt then a else b

/-- `std::cmp::min` specialised to `State` with the bare-state order
(`min` returns the first argument unless it is strictly greater). -/
def stateMin (a b : State) : State :=
  if bareCmp a.bare_state b.bare_state = Ordering.gt then b else a

/-- `merge`: clone the larger state; absorb rival evidence from the smaller
one into `confidence1`/`proof1`. -/
def merge (s0 s1 : State) : State :=
  let maxS := stateMax s0 s1
  let minS := stateMin s0 s1
  if maxS.bare_state.endorses ≠ minS.bare_state.endorses then
    if maxS.bare_state.confidence1 < minS.bare_state.confidence0 then
      { maxS with
          bare_state := { maxS.bare_state with confidence1 := minS.bare_state.confidence0 },
          proof1 := minS.proof0 }
    else maxS
  else
    if maxS.bare_state.confidence1 < minS.bare_state.confidence1 then
      { maxS with
          bare_state := { maxS.bare_state with confidence1 := minS.bare_state.confidence1 },
          proof1 := minS.proof1 }
    else maxS

/-- `incompatible_states`: the merge differs from the maximum (equality on
`State` in the source compares only the bare state). -/
def incompatibleStates (s0 s1 : State) : Bool :=
  decide ((merge s0 s1).bare_state ≠ (stateMax s0 s1).bare_state)

/-- `NSResult`. -/
inductive NSResult where
  | Updated : Option State → NSResult
  | Error : String → NSResult
deriving DecidableEq

/-- A Rust panic, made explicit in the embedding. -/
inductive Fault where
  | outOfBounds : Fault
  | assertViolation : Fault
deriving DecidableEq

/-- The per-authority `Nightshade` instance. The `HashSet` of seen bare
states is modelled as a duplicate-free list. -/
structure Nightshade where
  owner_id : Nat
  num_authorities : Nat
  states : List State
  is_adversary : List Bool
  best_state_counter : Nat
  seen_bare_states : List BareState
  committed : Option Nat
deriving DecidableEq

/-- `Nightshade::new`: own slot gets `State::new(owner_id)`, every other
slot is empty. -/
def Nightshade.new (owner_id num_authorities : Nat) : Nightshade where
  owner_id := owner_id
  num_authorities := num_authorities
  states := (List.range num_authorities).map
    (fun i => if i = owner_id then State.new i else State.empty)
  is_adversary := List.replicate num_authorities false
  best_state_counter := 1
  seen_bare_states := []
  committed := none

/-- The proof-collection loop of `update_state` step 7: for `i` in
`0..n`, if `states[i] == states[owner_id]` push its bare state. Indexing
past the end of `states` is the out-of-bounds panic, hence `Option`. -/
def collectProof (states : List State) (own : State) (n : Nat) : Option SignedState :=
  if n ≤ states.length then
    some ⟨0, ((states.take n).filter
        (fun st => decide (st.bare_state = own.bare_state))).map
      (fun st => st.bare_state)⟩
  else none

/-- The commit check of `update_state` (source lines 289-295): latch
`committed`, asserting agreement if already committed, and return the
updated own state. `own` is the current own state `ns.states[owner_id]`. -/
def commitPhase (ns : Nightshade) (own : State) : Except Fault (NSResult × Nightshade) :=
  if own.can_commit then
    match ns.committed with
    | some e =>
        if e = own.endorses then Except.ok (NSResult.Updated (some own), ns)
        else Except.error Fault.assertViolation
    | none =>
        Except.ok (NSResult.Updated (some own),
          { ns with committed := some own.endorses })
  else Except.ok (NSResult.Updated (some own), ns)

/-- Support counting and the confidence raise of `update_state` (source
lines 264-287). `states2` and `own2` are the state vector and own state
after the merge step, `bsc1` the counter after its possible reset. -/
def supportPhase (ns : Nightshade) (s : State) (states2 : List State) (own2 : State)
    (bsc1 : Nat) : Except Fault (NSResult × Nightshade) :=
  let bsc2 := if s.bare_state = own2.bare_state then bsc1 + 1 else bsc1
  if ns.num_authorities * 2 / 3 < bsc2 then
    match collectProof states2 own2 ns.num_authorities with
    | none => Except.error Fault.outOfBounds
    | some proof =>
        let own3 := own2.increase_confidence proof
        commitPhase
          { ns with states := (states2.set ns.owner_id own3), best_state_counter := 1 }
          own3
  else
    commitPhase { ns with states := states2, best_state_counter := bsc2 } own2

/-- The non-stale path of `update_state` (source lines 253-297): record
the peer state, merge it into the own slot, then count support. -/
def mainUpdate (ns : Nightshade) (authority_id : Nat) (s : State) :
    Except Fault (NSResult × Nightshade) :=
  let states1 := ns.states.set authority_id s
  match states1.get? ns.owner_id with
  | none => Except.error Fault.outOfBounds
  | some own =>
      let merged := merge own s
      if merged.bare_state = own.bare_state then
        supportPhase ns s states1 own ns.best_state_counter
      else
        supportPhase ns s (states1.set ns.owner_id merged) merged 1

/-- Insert a bare state into the verification cache if absent. -/
def seenInsert (ns : Nightshade) (b : BareState) : Nightshade :=
  if b ∈ ns.seen_bare_states then ns
  else { ns with seen_bare_states := b :: ns.seen_bare_states }

/-- `Nightshade::update_state`. Out-of-range indexing of `is_adversary` /
`states` is the out-of-bounds panic. -/
def updateState (ns : Nightshade) (authority_id : Nat) (s : State) :
    Except Fault (NSResult × Nightshade) :=
  match ns.is_adversary.get? authority_id, ns.states.get? authority_id with
  | some adv, some recorded =>
      if adv || incompatibleStates recorded s then
        Except.ok (NSResult.Error "Not processing adversaries updates",
          { ns with is_adversary := ns.is_adversary.set authority_id true })
      else if decide (s.bare_state ∈ ns.seen_bare_states) || s.verify then
        let ns1 := seenInsert ns s.bare_state
        if bareGtB s.bare_state recorded.bare_state then mainUpdate ns1 authority_id s
        else Except.ok (NSResult.Updated none, ns1)
      else Except.ok (NSResult.Error "Not valid state", ns)
  | _, _ => Except.error Fault.outOfBounds

/-- `Nightshade::state` (a clone of the own slot; out of range is a panic,
modelled by `Option`). -/
def Nightshade.state (ns : Nightshade) : Option State := ns.states.get? ns.owner_id

/-- `Nightshade::can_increase_confidence`. -/
def Nightshade.can_increase_confidence (ns : Nightshade) : Bool :=
  decide (ns.num_authorities * 2 / 3 < ns.best_state_counter)

/-- `Nightshade::is_final`. -/
def Nightshade.is_final (ns : Nightshade) : Bool := ns.committed.isSome

/-- The own state, defaulting to `State.empty` out of range (the default is
never used on reachable instances). -/
def ownStateD (ns : Nightshade) : State := (ns.states.get? ns.owner_id).getD State.empty

/-- Own primary confidence. -/
def ownC0 (ns : Nightshade) : Int := (ownStateD ns).bare_state.confidence0

/-- Does `st` equal `own` in the sense of the source `State` equality
(bare states agree)? -/
def stateMatches (own st : State) : Bool := decide (st.bare_state = own.bare_state)

/-- The number of authority indices `i < num_authorities` whose recorded
state equals the own state (source `State` equality). -/
def bestCountIdx (ns : Nightshade) : Nat :=
  (List.range ns.num_authorities).countP
    (fun i => stateMatches (ownStateD ns) (ns.states.getD i State.empty))

/-- Instances reachable from `Nightshade::new` by successful (non-panicking)
`update_state` calls with arbitrary inputs. -/
inductive Reachable : Nightshade → Prop where
  | init (owner_id num_authorities : Nat) (h : owner_id < num_authorities) :
      Reachable (Nightshade.new owner_id num_authorities)
  | step (ns : Nightshade) (authority_id : Nat) (s : State) (r : NSResult)
      (ns' : Nightshade) (hr : Reachable ns)
      (hstep : updateState ns authority_id s = Except.ok (r, ns')) : Reachable ns'

/-- Instances reachable as in `Reachable`, but where every update names a
peer other than the owner (the transport never delivers a message from an
authority to itself). -/
inductive ReachablePeer : Nightshade → Prop where
  | init (owner_id num_authorities : Nat) (h : owner_id < num_authorities) :
      ReachablePeer (Nightshade.new owner_id num_authorities)
  | step (ns : Nightshade) (authority_id : Nat) (s : State) (r : NSResult)
      (ns' : Nightshade) (hr : ReachablePeer ns) (hne : authority_id ≠ ns.owner_id)
      (hstep : updateState ns authority_id s = Except.ok (r, ns')) : ReachablePeer ns'

/-- Structural invariant of reachable instances: the vectors have length
`num_authorities`, the owner index is in range, and every recorded state is
at most the own state in the bare-state total order. -/
def NsInv (ns : Nightshade) : Prop :=
  ns.states.length = ns.num_authorities ∧
  ns.is_adversary.length = ns.num_authorities ∧
  ns.owner_id < ns.num_authorities ∧
  ∀ st ∈ ns.states, BareState.le st.bare_state (ownStateD ns).bare_state

/-! ## Order lemmas for the bare-state total order -/

lemma bareCmp_eq_gt_iff (a b : BareState) :
    bareCmp a b = Ordering.gt ↔ BareState.lt b a := by
  unfold bareCmp BareState.lt
  split_ifs <;> simp <;> omega

lemma bareCmp_eq_lt_iff (a b : BareState) :
    bareCmp a b = Ordering.lt ↔ BareState.lt a b := by
  unfold bareCmp BareState.lt
  split_ifs <;> simp <;> omega

lemma bareCmp_eq_eq_iff (a b : BareState) :
    bareCmp a b = Ordering.eq ↔ a = b := by
  cases a with
  | mk e0 c00 c10 =>
    cases b with
    | mk e1 c01 c11 =>
      unfold bareCmp
      split_ifs <;> simp_all <;> omega

lemma bareCmp_ne_gt_iff (a b : BareState) :
    ¬ bareCmp a b = Ordering.gt ↔ BareState.le a b := by
  unfold bareCmp BareState.le
  split_ifs <;> simp <;> omega

lemma bareGtB_true_iff (a b : BareState) :
    bareGtB a b = true ↔ BareState.lt b a := by
  unfold bareGtB
  rw [decide_eq_true_iff]
  exact bareCmp_eq_gt_iff a b

lemma bareGtB_false_iff (a b : BareState) :
    bareGtB a b = false ↔ BareState.le a b := by
  unfold bareGtB
  rw [decide_eq_false_iff_not]
  exact bareCmp_ne_gt_iff a b

lemma BareState.le_refl (a : BareState) : BareState.le a a := by
  unfold BareState.le; omega

lemma BareState.le_trans {a b c : BareState} (h1 : BareState.le a b)
    (h2 : BareState.le b c) : BareState.le a c := by
  unfold BareState.le at h1 h2 ⊢; omega

lemma BareState.le_of_lt {a b : BareState} (h : BareState.lt a b) : BareState.le a b := by
  unfold BareState.le; unfold BareState.lt at h; omega

lemma BareState.lt_of_le_of_lt {a b c : BareState} (h1 : BareState.le a b)
    (h2 : BareState.lt b c) : BareState.lt a c := by
  unfold BareState.le at h1; unfold BareState.lt at h2 ⊢; omega

lemma BareState.lt_of_lt_of_le {a b c : BareState} (h1 : BareState.lt a b)
    (h2 : BareState.le b c) : BareState.lt a c := by
  unfold BareState.lt at h1 ⊢; unfold BareState.le at h2; omega

lemma BareState.ne_of_lt {a b : BareState} (h : BareState.lt a b) : a ≠ b := by
  intro he
  subst he
  unfold BareState.lt at h
  omega

lemma BareState.lt_of_le_of_ne {a b : BareState} (h1 : BareState.le a b)
    (h2 : a ≠ b) : BareState.lt a b := by
  cases a with
  | mk e0 c00 c10 =>
    cases b with
    | mk e1 c01 c11 =>
      unfold BareState.le at h1
      unfold BareState.lt
      simp only [ne_eq, BareState.mk.injEq] at h2
      dsimp only at h1 ⊢
      omega

lemma BareState.c0_le_of_le {a b : BareState} (h : BareState.le a b) :
    a.confidence0 ≤ b.confidence0 := by
  unfold BareState.le at h; omega

lemma BareState.le_increase (a : BareState) (e : Nat) (h : a.endorses = e) :
    BareState.le a ⟨e, a.confidence0 + 1, a.confidence1⟩ := by
  unfold BareState.le; simp [h]

/-! ## List helper lemmas -/

lemma lt_length_of_get?_eq_some {α : Type} {l : List α} {i : Nat} {a : α}
    (h : l.get? i = some a) : i < l.length := by
  by_contra hc
  rw [List.get?_eq_none.mpr (by omega)] at h
  exact Option.noConfusion h

lemma get?_set_self {α : Type} (l : List α) (i : Nat) (a : α) (h : i < l.length) :
    (l.set i a).get? i = some a := by
  induction l generalizing i with
  | nil => simp at h
  | cons x t ih =>
    cases i with
    | zero => rfl
    | succ n =>
      simp only [List.set_cons_succ, List.get?_cons_succ]
      exact ih n (by simpa using h)

lemma get?_set_other {α : Type} (l : List α) (i j : Nat) (a : α) (h : i ≠ j) :
    (l.set i a).get? j = l.get? j := by
  induction l generalizing i j with
  | nil => simp
  | cons x t ih =>
    cases i with
    | zero =>
      cases j with
      | zero => exact absurd rfl h
      | succ m => rfl
    | succ n =>
      cases j with
      | zero => rfl
      | succ m =>
        simp only [List.set_cons_succ, List.get?_cons_succ]
        exact ih n m (by omega)

lemma countP_set_add {α : Type} (l : List α) (i : Nat) (a old : α) (p : α → Bool)
    (h : l.get? i = some old) :
    (l.set i a).countP p + (if p old then 1 else 0) =
      l.countP p + (if p a then 1 else 0) := by
  induction l generalizing i with
  | nil => simp at h
  | cons x t ih =>
    cases i with
    | zero =>
      simp only [List.get?_cons_zero, Option.some.injEq] at h
      subst h
      simp only [List.set_cons_zero, List.countP_cons]
      split_ifs <;> omega
    | succ n =>
      simp only [List.get?_cons_succ] at h
      simp only [List.set_cons_succ, List.countP_cons]
      have hrec := ih n h
      split_ifs at hrec ⊢ <;> omega

lemma countP_range_getD {α : Type} (l : List α) (d : α) (p : α → Bool) :
    (List.range l.length).countP (fun i => p (l.getD i d)) = l.countP p := by
  induction l with
  | nil => simp
  | cons x t ih =>
    rw [List.length_cons, List.range_succ_eq_map, List.countP_cons, List.countP_map,
      List.countP_cons]
    simp only [Function.comp_def, List.getD_cons_succ, List.getD_cons_zero]
    rw [ih]

/-! ## Lemmas about `stateMax`, `merge` and `incompatibleStates` -/

lemma bareCmp_self (a : BareState) : bareCmp a a = Ordering.eq := by
  unfold bareCmp; simp

lemma BareState.lt_irrefl (a : BareState) : ¬ BareState.lt a a := by
  unfold BareState.lt; omega

lemma le_stateMax_left (a b : State) :
    BareState.le a.bare_state (stateMax a b).bare_state := by
  unfold stateMax
  split_ifs with h
  · exact BareState.le_refl _
  · exact (bareCmp_ne_gt_iff _ _).mp h

lemma le_stateMax_right (a b : State) :
    BareState.le b.bare_state (stateMax a b).bare_state := by
  unfold stateMax
  split_ifs with h
  · exact BareState.le_of_lt ((bareCmp_eq_gt_iff _ _).mp h)
  · exact BareState.le_refl _

lemma merge_bare_fields (a b : State) :
    (merge a b).bare_state.endorses = (stateMax a b).bare_state.endorses ∧
    (merge a b).bare_state.confidence0 = (stateMax a b).bare_state.confidence0 ∧
    (stateMax a b).bare_state.confidence1 ≤ (merge a b).bare_state.confidence1 := by
  simp only [merge]
  split_ifs <;> simp <;> omega

lemma le_merge_max (a b : State) :
    BareState.le (stateMax a b).bare_state (merge a b).bare_state := by
  obtain ⟨h1, h2, h3⟩ := merge_bare_fields a b
  unfold BareState.le
  omega

lemma le_merge_left (a b : State) :
    BareState.le a.bare_state (merge a b).bare_state :=
  BareState.le_trans (le_stateMax_left a b) (le_merge_max a b)

lemma le_merge_right (a b : State) :
    BareState.le b.bare_state (merge a b).bare_state :=
  BareState.le_trans (le_stateMax_right a b) (le_merge_max a b)

lemma merge_comm_bare (a b : State) : (merge a b).bare_state = (merge b a).bare_state := by
  cases hc : bareCmp a.bare_state b.bare_state with
  | lt =>
    have hgt : bareCmp b.bare_state a.bare_state = Ordering.gt :=
      (bareCmp_eq_gt_iff b.bare_state a.bare_state).mpr
        ((bareCmp_eq_lt_iff a.bare_state b.bare_state).mp hc)
    simp [merge, stateMax, stateMin, hc, hgt]
  | gt =>
    have hlt : bareCmp b.bare_state a.bare_state = Ordering.lt :=
      (bareCmp_eq_lt_iff b.bare_state a.bare_state).mpr
        ((bareCmp_eq_gt_iff a.bare_state b.bare_state).mp hc)
    simp [merge, stateMax, stateMin, hc, hlt]
  | eq =>
    have he : a.bare_state = b.bare_state :=
      (bareCmp_eq_eq_iff a.bare_state b.bare_state).mp hc
    have hc2 : bareCmp b.bare_state a.bare_state = Ordering.eq :=
      (bareCmp_eq_eq_iff b.bare_state a.bare_state).mpr he.symm
    simp [merge, stateMax, stateMin, he, bareCmp_self]

lemma incompatible_iff_lt (a b : State) :
    incompatibleStates a b = true ↔
      BareState.lt (stateMax a b).bare_state (merge a b).bare_state := by
  unfold incompatibleStates
  rw [decide_eq_true_iff]
  constructor
  · intro h
    exact BareState.lt_of_le_of_ne (le_merge_max a b) (Ne.symm h)
  · intro h hne
    rw [hne] at h
    exact BareState.lt_irrefl _ h

lemma merge_self (s : State) : merge s s = s := by
  simp [merge, stateMax, stateMin]

lemma incompatible_self_false (s : State) : incompatibleStates s s = false := by
  simp [incompatibleStates, merge_self, stateMax]

lemma bareGtB_self_false (a : BareState) : bareGtB a a = false := by
  simp [bareGtB, bareCmp_self]

lemma bareCmp_increase_gt (s : State) (pr : SignedState) :
    bareCmp (s.increase_confidence pr).bare_state s.bare_state = Ordering.gt := by
  rw [bareCmp_eq_gt_iff]
  unfold State.increase_confidence BareState.lt
  simp

lemma incompatible_increase_false (s : State) (pr : SignedState) :
    incompatibleStates (s.increase_confidence pr) s = false := by
  have hgt := bareCmp_increase_gt s pr
  simp only [State.increase_confidence] at hgt
  simp [incompatibleStates, merge, stateMax, stateMin, State.increase_confidence, hgt]

lemma bareGtB_increase_false (s : State) (pr : SignedState) :
    bareGtB s.bare_state (s.increase_confidence pr).bare_state = false := by
  rw [bareGtB_false_iff]
  unfold State.increase_confidence
  exact BareState.le_increase _ _ rfl

lemma increase_bare_ne (s : State) (pr : SignedState) :
    (s.increase_confidence pr).bare_state ≠ s.bare_state := by
  intro h
  have := congrArg BareState.confidence0 h
  unfold State.increase_confidence at this
  simp at this

/-! ## Record-shape lemmas for `seenInsert` -/

lemma seenInsert_states (ns : Nightshade) (b : BareState) :
    (seenInsert ns b).states = ns.states := by
  unfold seenInsert; split_ifs <;> rfl

lemma seenInsert_owner (ns : Nightshade) (b : BareState) :
    (seenInsert ns b).owner_id = ns.owner_id := by
  unfold seenInsert; split_ifs <;> rfl

lemma seenInsert_num (ns : Nightshade) (b : BareState) :
    (seenInsert ns b).num_authorities = ns.num_authorities := by
  unfold seenInsert; split_ifs <;> rfl

lemma seenInsert_adv (ns : Nightshade) (b : BareState) :
    (seenInsert ns b).is_adversary = ns.is_adversary := by
  unfold seenInsert; split_ifs <;> rfl

lemma seenInsert_best (ns : Nightshade) (b : BareState) :
    (seenInsert ns b).best_state_counter = ns.best_state_counter := by
  unfold seenInsert; split_ifs <;> rfl

lemma seenInsert_committed (ns : Nightshade) (b : BareState) :
    (seenInsert ns b).committed = ns.committed := by
  unfold seenInsert; split_ifs <;> rfl

lemma mem_seenInsert (ns : Nightshade) (b : BareState) :
    b ∈ (seenInsert ns b).seen_bare_states := by
  unfold seenInsert
  split_ifs with h
  · exact h
  · exact List.mem_cons_self _ _

lemma seenInsert_of_mem (ns : Nightshade) (b : BareState)
    (h : b ∈ ns.seen_bare_states) : seenInsert ns b = ns := by
  unfold seenInsert
  split_ifs
  rfl

/-! ## Characterisation of the `update_state` phases -/

lemma commitPhase_ok (ns : Nightshade) (own : State) (r : NSResult) (ns' : Nightshade)
    (h : commitPhase ns own = Except.ok (r, ns')) :
    r = NSResult.Updated (some own) ∧
    ns'.owner_id = ns.owner_id ∧
    ns'.num_authorities = ns.num_authorities ∧
    ns'.states = ns.states ∧
    ns'.is_adversary = ns.is_adversary ∧
    ns'.best_state_counter = ns.best_state_counter ∧
    ns'.seen_bare_states = ns.seen_bare_states ∧
    (ns'.committed = ns.committed ∨
      (ns.committed = none ∧ ns'.committed = some own.endorses)) := by
  unfold commitPhase at h
  split at h
  · split at h
    · split at h
      · simp only [Except.ok.injEq, Prod.mk.injEq] at h
        obtain ⟨rfl, rfl⟩ := h
        exact ⟨rfl, rfl, rfl, rfl, rfl, rfl, rfl, Or.inl rfl⟩
      · simp at h
    · rename_i heq
      simp only [Except.ok.injEq, Prod.mk.injEq] at h
      obtain ⟨rfl, rfl⟩ := h
      exact ⟨rfl, rfl, rfl, rfl, rfl, rfl, rfl, Or.inr ⟨heq, rfl⟩⟩
  · simp only [Except.ok.injEq, Prod.mk.injEq] at h
    obtain ⟨rfl, rfl⟩ := h
    exact ⟨rfl, rfl, rfl, rfl, rfl, rfl, rfl, Or.inl rfl⟩

lemma supportPhase_ok (ns : Nightshade) (s : State) (states2 : List State) (own2 : State)
    (bsc1 : Nat) (r : NSResult) (ns' : Nightshade)
    (h : supportPhase ns s states2 own2 bsc1 = Except.ok (r, ns')) :
    ∃ ownF statesF,
      r = NSResult.Updated (some ownF) ∧
      ns'.owner_id = ns.owner_id ∧
      ns'.num_authorities = ns.num_authorities ∧
      ns'.is_adversary = ns.is_adversary ∧
      ns'.seen_bare_states = ns.seen_bare_states ∧
      ns'.states = statesF ∧
      (ns'.committed = ns.committed ∨
        (ns.committed = none ∧ ns'.committed = some ownF.endorses)) ∧
      ((ownF = own2 ∧ statesF = states2 ∧
          ns'.best_state_counter =
            (if s.bare_state = own2.bare_state then bsc1 + 1 else bsc1)) ∨
        (∃ proof, collectProof states2 own2 ns.num_authorities = some proof ∧
          ownF = own2.increase_confidence proof ∧
          statesF = states2.set ns.owner_id ownF ∧
          ns'.best_state_counter = 1)) := by
  simp only [supportPhase] at h
  generalize hbsc : (if s.bare_state = own2.bare_state then bsc1 + 1 else bsc1) = bsc2 at h ⊢
  split at h
  · split at h
    · simp at h
    · rename_i proof hcp
      obtain ⟨hr, ho, hn, hst, ha, hb, hsn, hcm⟩ := commitPhase_ok _ _ _ _ h
      exact ⟨own2.increase_confidence proof,
        states2.set ns.owner_id (own2.increase_confidence proof),
        hr, ho, hn, ha, hsn, hst, hcm, Or.inr ⟨proof, hcp, rfl, rfl, hb⟩⟩
  · obtain ⟨hr, ho, hn, hst, ha, hb, hsn, hcm⟩ := commitPhase_ok _ _ _ _ h
    exact ⟨own2, states2, hr, ho, hn, ha, hsn, hst, hcm, Or.inl ⟨rfl, rfl, hb⟩⟩

lemma mainUpdate_ok_cases (ns : Nightshade) (aid : Nat) (s : State) (r : NSResult)
    (ns' : Nightshade) (h : mainUpdate ns aid s = Except.ok (r, ns')) :
    ∃ own, (ns.states.set aid s).get? ns.owner_id = some own ∧
      (((merge own s).bare_state = own.bare_state ∧
          supportPhase ns s (ns.states.set aid s) own ns.best_state_counter =
            Except.ok (r, ns')) ∨
        ((merge own s).bare_state ≠ own.bare_state ∧
          supportPhase ns s ((ns.states.set aid s).set ns.owner_id (merge own s))
            (merge own s) 1 = Except.ok (r, ns'))) := by
  simp only [mainUpdate] at h
  split at h
  · simp at h
  · rename_i own heq
    refine ⟨own, heq, ?_⟩
    split at h
    · exact Or.inl ⟨by assumption, h⟩
    · exact Or.inr ⟨by assumption, h⟩

lemma updateState_ok_cases (ns : Nightshade) (aid : Nat) (s : State) (r : NSResult)
    (ns' : Nightshade) (h : updateState ns aid s = Except.ok (r, ns')) :
    ∃ adv recorded,
      ns.is_adversary.get? aid = some adv ∧ ns.states.get? aid = some recorded ∧
      (((adv = true ∨ incompatibleStates recorded s = true) ∧
          r = NSResult.Error "Not processing adversaries updates" ∧
          ns' = { ns with is_adversary := ns.is_adversary.set aid true }) ∨
        (adv = false ∧ incompatibleStates recorded s = false ∧
          bareGtB s.bare_state recorded.bare_state = false ∧
          r = NSResult.Updated none ∧ ns' = seenInsert ns s.bare_state) ∨
        (adv = false ∧ incompatibleStates recorded s = false ∧
          bareGtB s.bare_state recorded.bare_state = true ∧
          mainUpdate (seenInsert ns s.bare_state) aid s = Except.ok (r, ns'))) := by
  unfold updateState at h
  split at h
  · rename_i adv recorded h1 h2
    refine ⟨adv, recorded, h1, h2, ?_⟩
    split at h
    · rename_i hcond
      simp only [Except.ok.injEq, Prod.mk.injEq] at h
      obtain ⟨rfl, rfl⟩ := h
      exact Or.inl ⟨(Bool.or_eq_true _ _).mp hcond, rfl, rfl⟩
    · rename_i hcond
      simp only [Bool.or_eq_true, not_or] at hcond
      obtain ⟨hadv, hinc⟩ := hcond
      have hadv' : adv = false := by cases adv <;> simp_all
      have hinc' : incompatibleStates recorded s = false := by
        cases hI : incompatibleStates recorded s <;> simp_all
      simp only [State.verify, Bool.or_true, if_true] at h
      split at h
      · rename_i hgt
        exact Or.inr (Or.inr ⟨hadv', hinc', hgt, h⟩)
      · rename_i hgt
        have hgt' : bareGtB s.bare_state recorded.bare_state = false := by
          cases hg : bareGtB s.bare_state recorded.bare_state <;> simp_all
        simp only [Except.ok.injEq, Prod.mk.injEq] at h
        obtain ⟨rfl, rfl⟩ := h
        exact Or.inr (Or.inl ⟨hadv', hinc', hgt', rfl, rfl⟩)
  · simp at h

/-! ## Master step lemmas -/

lemma BareState.lt_increase (s : State) (pr : SignedState) :
    BareState.lt s.bare_state (s.increase_confidence pr).bare_state := by
  unfold State.increase_confidence BareState.lt
  simp

lemma mainUpdate_own (ns : Nightshade) (aid : Nat) (s : State) (r : NSResult)
    (ns' : Nightshade) (h : mainUpdate ns aid s = Except.ok (r, ns')) :
    ∃ own ownF,
      (ns.states.set aid s).get? ns.owner_id = some own ∧
      ns'.owner_id = ns.owner_id ∧
      ns'.num_authorities = ns.num_authorities ∧
      ns'.is_adversary = ns.is_adversary ∧
      ns'.seen_bare_states = ns.seen_bare_states ∧
      ns'.states.length = ns.states.length ∧
      ns'.states.get? ns.owner_id = some ownF ∧
      r = NSResult.Updated (some ownF) ∧
      BareState.le own.bare_state ownF.bare_state ∧
      (ns'.committed = ns.committed ∨
        (ns.committed = none ∧ ns'.committed = some ownF.endorses)) := by
  obtain ⟨own, heq, hcase⟩ := mainUpdate_ok_cases ns aid s r ns' h
  have howner_lt : ns.owner_id < (ns.states.set aid s).length :=
    lt_length_of_get?_eq_some heq
  rcases hcase with ⟨hbare, hsp⟩ | ⟨hbare, hsp⟩
  · -- merge did not change the own state
    obtain ⟨ownF, statesF, hr, ho, hn, ha, hsn, hst, hcm, hbr⟩ :=
      supportPhase_ok _ _ _ _ _ _ _ hsp
    rcases hbr with ⟨hF, hS, hb⟩ | ⟨proof, hcp, hF, hS, hb⟩
    · refine ⟨own, ownF, heq, ho, hn, ha, hsn, ?_, ?_, hr, ?_, hcm⟩
      · rw [hst, hS]; simp
      · rw [hst, hS, hF]; exact heq
      · rw [hF]; exact BareState.le_refl _
    · refine ⟨own, ownF, heq, ho, hn, ha, hsn, ?_, ?_, hr, ?_, hcm⟩
      · rw [hst, hS]; simp
      · rw [hst, hS]; exact get?_set_self _ _ _ howner_lt
      · rw [hF]; exact BareState.le_of_lt (BareState.lt_increase own proof)
  · -- merge strictly improved the own state
    obtain ⟨ownF, statesF, hr, ho, hn, ha, hsn, hst, hcm, hbr⟩ :=
      supportPhase_ok _ _ _ _ _ _ _ hsp
    have hle : BareState.le own.bare_state (merge own s).bare_state := le_merge_left own s
    rcases hbr with ⟨hF, hS, hb⟩ | ⟨proof, hcp, hF, hS, hb⟩
    · refine ⟨own, ownF, heq, ho, hn, ha, hsn, ?_, ?_, hr, ?_, hcm⟩
      · rw [hst, hS]; simp
      · rw [hst, hS, hF]; exact get?_set_self _ _ _ howner_lt
      · rw [hF]; exact hle
    · refine ⟨own, ownF, heq, ho, hn, ha, hsn, ?_, ?_, hr, ?_, hcm⟩
      · rw [hst, hS]; simp
      · rw [hst, hS]
        exact get?_set_self _ _ _ (by simpa using howner_lt)
      · rw [hF]
        exact BareState.le_trans hle
          (BareState.le_of_lt (BareState.lt_increase (merge own s) proof))

lemma updateState_step_master (ns : Nightshade) (aid : Nat) (s : State) (r : NSResult)
    (ns' : Nightshade) (h : updateState ns aid s = Except.ok (r, ns')) :
    ns'.owner_id = ns.owner_id ∧
    ns'.num_authorities = ns.num_authorities ∧
    ns'.states.length = ns.states.length ∧
    ns'.is_adversary.length = ns.is_adversary.length ∧
    ownC0 ns ≤ ownC0 ns' ∧
    (∀ e, ns.committed = some e → ns'.committed = some e) ∧
    (ns.committed = none → ∀ e, ns'.committed = some e →
      (ns'.states.get? ns'.owner_id).map State.endorses = some e) ∧
    (∀ i, ns.is_adversary.get? i = some true → ns'.is_adversary.get? i = some true) := by
  obtain ⟨adv, recorded, h1, h2, hcase⟩ := updateState_ok_cases ns aid s r ns' h
  rcases hcase with ⟨hc, hrr, hns'⟩ | ⟨hadv, hinc, hgt, hrr, hns'⟩ | ⟨hadv, hinc, hgt, hmain⟩
  · -- adversary branch: only is_adversary changes
    have how : ns'.owner_id = ns.owner_id := by rw [hns']
    have hnu : ns'.num_authorities = ns.num_authorities := by rw [hns']
    have hst : ns'.states = ns.states := by rw [hns']
    have hco : ns'.committed = ns.committed := by rw [hns']
    have hia : ns'.is_adversary = ns.is_adversary.set aid true := by rw [hns']
    refine ⟨how, hnu, by rw [hst], by rw [hia]; simp, ?_, ?_, ?_, ?_⟩
    · exact le_of_eq (by unfold ownC0 ownStateD; rw [hst, how])
    · intro e he; rw [hco]; exact he
    · intro hnone e hsome
      rw [hco, hnone] at hsome
      cases hsome
    · intro i hi
      rw [hia]
      by_cases hia2 : aid = i
      · subst hia2
        exact get?_set_self _ _ _ (lt_length_of_get?_eq_some h1)
      · rw [get?_set_other _ _ _ _ hia2]; exact hi
  · -- stale branch: only the seen set may change
    have how : ns'.owner_id = ns.owner_id := by rw [hns', seenInsert_owner]
    have hnu : ns'.num_authorities = ns.num_authorities := by rw [hns', seenInsert_num]
    have hst : ns'.states = ns.states := by rw [hns', seenInsert_states]
    have hco : ns'.committed = ns.committed := by rw [hns', seenInsert_committed]
    have hia : ns'.is_adversary = ns.is_adversary := by rw [hns', seenInsert_adv]
    refine ⟨how, hnu, by rw [hst], by rw [hia], ?_, ?_, ?_, ?_⟩
    · exact le_of_eq (by unfold ownC0 ownStateD; rw [hst, how])
    · intro e he; rw [hco]; exact he
    · intro hnone e hsome
      rw [hco, hnone] at hsome
      cases hsome
    · intro i hi; rw [hia]; exact hi
  · -- main branch
    obtain ⟨own, ownF, heq, ho, hn, ha, hsn, hlen, hget, hr2, hle, hcm⟩ :=
      mainUpdate_own _ _ _ _ _ hmain
    rw [seenInsert_states, seenInsert_owner] at heq
    rw [seenInsert_owner] at ho hget
    rw [seenInsert_num] at hn
    rw [seenInsert_states] at hlen
    rw [seenInsert_adv] at ha
    rw [seenInsert_committed] at hcm
    have hown_le : ownC0 ns ≤ ownC0 ns' := by
      have hD' : ownStateD ns' = ownF := by
        unfold ownStateD
        rw [ho, hget]
        rfl
      by_cases haid : aid = ns.owner_id
      · have hs_own : (ns.states.set aid s).get? ns.owner_id = some s := by
          rw [← haid]
          exact get?_set_self _ _ _ (lt_length_of_get?_eq_some h2)
        rw [hs_own] at heq
        have hsown : s = own := by injection heq
        have hOP : ownStateD ns = recorded := by
          unfold ownStateD; rw [← haid, h2]; rfl
        have hlt : BareState.lt recorded.bare_state s.bare_state :=
          (bareGtB_true_iff _ _).mp hgt
        unfold ownC0
        rw [hD', hOP]
        calc recorded.bare_state.confidence0
            ≤ s.bare_state.confidence0 :=
              BareState.c0_le_of_le (BareState.le_of_lt hlt)
          _ = own.bare_state.confidence0 := by rw [hsown]
          _ ≤ ownF.bare_state.confidence0 := BareState.c0_le_of_le hle
      · have hs_own : (ns.states.set aid s).get? ns.owner_id = ns.states.get? ns.owner_id :=
          get?_set_other _ _ _ _ haid
        rw [hs_own] at heq
        have hOP : ownStateD ns = own := by
          unfold ownStateD; rw [heq]; rfl
        unfold ownC0
        rw [hD', hOP]
        exact BareState.c0_le_of_le hle
    refine ⟨ho, hn, hlen, by rw [ha], hown_le, ?_, ?_, ?_⟩
    · intro e he
      rcases hcm with hsame | ⟨hnone, _⟩
      · rw [hsame]; exact he
      · rw [he] at hnone; cases hnone
    · intro hnone e hsome
      rcases hcm with hsame | ⟨_, hc2⟩
      · rw [hsame, hnone] at hsome; cases hsome
      · rw [hc2] at hsome
        injection hsome with hee
        rw [ho, hget]
        simp [hee]
    · intro i hi; rw [ha]; exact hi

/-! ## The dominance invariant: every recorded state is at most the own state -/

lemma supportPhase_all_le (ns : Nightshade) (s : State) (states2 : List State)
    (own2 : State) (bsc1 : Nat) (r : NSResult) (ns' : Nightshade)
    (h : supportPhase ns s states2 own2 bsc1 = Except.ok (r, ns'))
    (h2 : states2.get? ns.owner_id = some own2)
    (hall : ∀ st ∈ states2, BareState.le st.bare_state own2.bare_state) :
    ∃ ownF, ns'.states.get? ns.owner_id = some ownF ∧
      (∀ st ∈ ns'.states, BareState.le st.bare_state ownF.bare_state) ∧
      BareState.le own2.bare_state ownF.bare_state := by
  obtain ⟨ownF, statesF, hr, ho, hn, ha, hsn, hst, hcm, hbr⟩ :=
    supportPhase_ok _ _ _ _ _ _ _ h
  rcases hbr with ⟨hF, hS, hb⟩ | ⟨proof, hcp, hF, hS, hb⟩
  · refine ⟨ownF, ?_, ?_, ?_⟩
    · rw [hst, hS, hF]; exact h2
    · rw [hst, hS]
      intro st hstm
      rw [hF]
      exact hall st hstm
    · rw [hF]; exact BareState.le_refl _
  · have hinc : BareState.le own2.bare_state ownF.bare_state := by
      rw [hF]; exact BareState.le_of_lt (BareState.lt_increase own2 proof)
    refine ⟨ownF, ?_, ?_, hinc⟩
    · rw [hst, hS]
      exact get?_set_self _ _ _ (lt_length_of_get?_eq_some h2)
    · rw [hst, hS]
      intro st hstm
      rcases List.mem_or_eq_of_mem_set hstm with hmem | hF2
      · exact BareState.le_trans (hall st hmem) hinc
      · rw [hF2]; exact BareState.le_refl _

lemma mainUpdate_le (ns : Nightshade) (aid : Nat) (s : State) (r : NSResult)
    (ns' : Nightshade) (OP recorded : State)
    (h : mainUpdate ns aid s = Except.ok (r, ns'))
    (hOP : ns.states.get? ns.owner_id = some OP)
    (hrec : ns.states.get? aid = some recorded)
    (hlt : BareState.lt recorded.bare_state s.bare_state)
    (hall : ∀ st ∈ ns.states, BareState.le st.bare_state OP.bare_state) :
    ∃ ownF, ns'.states.get? ns.owner_id = some ownF ∧
      ∀ st ∈ ns'.states, BareState.le st.bare_state ownF.bare_state := by
  obtain ⟨own, heq, hcase⟩ := mainUpdate_ok_cases ns aid s r ns' h
  have howner_lt : ns.owner_id < (ns.states.set aid s).length :=
    lt_length_of_get?_eq_some heq
  have hOPown : BareState.le OP.bare_state own.bare_state := by
    by_cases haid : aid = ns.owner_id
    · have hs_own : (ns.states.set aid s).get? ns.owner_id = some s := by
        rw [← haid]
        exact get?_set_self _ _ _ (lt_length_of_get?_eq_some hrec)
      rw [hs_own] at heq
      have hsown : s = own := by injection heq
      have hOPrec : OP = recorded := by
        rw [← haid, hrec] at hOP
        injection hOP with hOP2
        exact hOP2.symm
      rw [hOPrec, ← hsown]
      exact BareState.le_of_lt hlt
    · rw [get?_set_other _ _ _ _ haid, hOP] at heq
      have : OP = own := by injection heq
      rw [this]
      exact BareState.le_refl _
  have hall1 : ∀ st ∈ ns.states.set aid s, BareState.le st.bare_state own.bare_state ∨
      st = s := by
    intro st hstm
    rcases List.mem_or_eq_of_mem_set hstm with hmem | hF2
    · exact Or.inl (BareState.le_trans (hall st hmem) hOPown)
    · exact Or.inr hF2
  rcases hcase with ⟨hbare, hsp⟩ | ⟨hbare, hsp⟩
  · -- merge left the own state unchanged: the peer state is below it
    have hs_le : BareState.le s.bare_state own.bare_state := by
      have := le_merge_right own s
      rw [hbare] at this
      exact this
    have hside : ∀ st ∈ ns.states.set aid s, BareState.le st.bare_state own.bare_state := by
      intro st hstm
      rcases hall1 st hstm with hle | hF2
      · exact hle
      · rw [hF2]; exact hs_le
    obtain ⟨ownF, hget, hallF, _⟩ := supportPhase_all_le _ _ _ _ _ _ _ hsp heq hside
    exact ⟨ownF, hget, hallF⟩
  · -- merge strictly improved the own state
    have h2m : ((ns.states.set aid s).set ns.owner_id (merge own s)).get? ns.owner_id =
        some (merge own s) := get?_set_self _ _ _ howner_lt
    have hside : ∀ st ∈ (ns.states.set aid s).set ns.owner_id (merge own s),
        BareState.le st.bare_state (merge own s).bare_state := by
      intro st hstm
      rcases List.mem_or_eq_of_mem_set hstm with hmem | hF2
      · rcases hall1 st hmem with hle | hF3
        · exact BareState.le_trans hle (le_merge_left own s)
        · rw [hF3]; exact le_merge_right own s
      · rw [hF2]; exact BareState.le_refl _
    obtain ⟨ownF, hget, hallF, _⟩ := supportPhase_all_le _ _ _ _ _ _ _ hsp h2m hside
    exact ⟨ownF, hget, hallF⟩

lemma new_ownStateD (owner_id num_authorities : Nat) (h : owner_id < num_authorities) :
    (Nightshade.new owner_id num_authorities).states.get?
      (Nightshade.new owner_id num_authorities).owner_id = some (State.new owner_id) := by
  show ((List.range num_authorities).map
    (fun i => if i = owner_id then State.new i else State.empty)).get? owner_id = _
  rw [List.get?_map, List.get?_range h]
  simp

lemma nsInv_new (owner_id num_authorities : Nat) (h : owner_id < num_authorities) :
    NsInv (Nightshade.new owner_id num_authorities) := by
  have hD : ownStateD (Nightshade.new owner_id num_authorities) = State.new owner_id := by
    unfold ownStateD
    rw [new_ownStateD owner_id num_authorities h]
    rfl
  refine ⟨by simp [Nightshade.new], by simp [Nightshade.new], h, ?_⟩
  intro st hst
  rw [hD]
  rcases List.mem_map.mp hst with ⟨i, _, hfi⟩
  by_cases hio : i = owner_id
  · rw [hio] at hfi
    simp only [if_pos rfl] at hfi
    rw [← hfi]
    exact BareState.le_refl _
  · rw [if_neg hio] at hfi
    rw [← hfi]
    unfold BareState.le State.empty State.new BareState.empty BareState.new
    simp

lemma nsInv_own (ns : Nightshade) (hinv : NsInv ns) :
    ∃ OP, ns.states.get? ns.owner_id = some OP ∧ ownStateD ns = OP := by
  obtain ⟨hl1, _, howner, _⟩ := hinv
  cases hOP : ns.states.get? ns.owner_id with
  | none =>
    exfalso
    have := List.get?_eq_none.mp hOP
    omega
  | some OP =>
    refine ⟨OP, rfl, ?_⟩
    unfold ownStateD
    rw [hOP]
    rfl

lemma nsInv_step (ns : Nightshade) (aid : Nat) (s : State) (r : NSResult)
    (ns' : Nightshade) (hinv : NsInv ns)
    (h : updateState ns aid s = Except.ok (r, ns')) : NsInv ns' := by
  obtain ⟨how, hnu, hsl, hal, _, _, _, _⟩ := updateState_step_master ns aid s r ns' h
  obtain ⟨hl1, hl2, howner, hall⟩ := hinv
  obtain ⟨OP, hOP, hD⟩ := nsInv_own ns ⟨hl1, hl2, howner, hall⟩
  refine ⟨by rw [hsl, hnu]; exact hl1, by rw [hal, hnu]; exact hl2,
    by rw [how, hnu]; exact howner, ?_⟩
  obtain ⟨adv, recorded, h1, h2, hcase⟩ := updateState_ok_cases ns aid s r ns' h
  rcases hcase with ⟨hc, hrr, hns'⟩ | ⟨hadv, hinc, hgt, hrr, hns'⟩ | ⟨hadv, hinc, hgt, hmain⟩
  · have hst : ns'.states = ns.states := by rw [hns']
    intro st hstm
    have hD' : ownStateD ns' = ownStateD ns := by
      unfold ownStateD
      rw [hst, how]
    rw [hD', hst] at *
    exact hall st (by rw [← hst]; exact hstm)
  · have hst : ns'.states = ns.states := by rw [hns', seenInsert_states]
    intro st hstm
    have hD' : ownStateD ns' = ownStateD ns := by
      unfold ownStateD
      rw [hst, how]
    rw [hD']
    exact hall st (by rw [← hst]; exact hstm)
  · have hlt : BareState.lt recorded.bare_state s.bare_state :=
      (bareGtB_true_iff _ _).mp hgt
    have hOP1 : (seenInsert ns s.bare_state).states.get?
        (seenInsert ns s.bare_state).owner_id = some OP := by
      rw [seenInsert_states, seenInsert_owner]; exact hOP
    have hrec1 : (seenInsert ns s.bare_state).states.get? aid = some recorded := by
      rw [seenInsert_states]; exact h2
    have hall1 : ∀ st ∈ (seenInsert ns s.bare_state).states,
        BareState.le st.bare_state OP.bare_state := by
      rw [seenInsert_states]
      intro st hstm
      rw [← hD]
      exact hall st hstm
    obtain ⟨ownF, hget, hallF⟩ :=
      mainUpdate_le _ _ _ _ _ OP recorded hmain hOP1 hrec1 hlt hall1
    rw [seenInsert_owner] at hget
    have hD' : ownStateD ns' = ownF := by
      unfold ownStateD
      rw [how, hget]
      rfl
    intro st hstm
    rw [hD']
    exact hallF st hstm

lemma reachable_inv (ns : Nightshade) (h : Reachable ns) : NsInv ns := by
  induction h with
  | init owner_id num_authorities howner => exact nsInv_new owner_id num_authorities howner
  | step ns aid s r ns' hr hstep ih => exact nsInv_step ns aid s r ns' ih hstep

/-! ## The support-counter invariant -/

lemma ite_bool_true {n m : Nat} : (if (true = true) then n else m) = n := if_pos rfl

lemma ite_bool_false {n m : Nat} : (if (false = true) then n else m) = m := by
  simp

lemma stateMatches_false_of_lt (own st : State)
    (h : BareState.lt st.bare_state own.bare_state) : stateMatches own st = false := by
  simp only [stateMatches, decide_eq_false_iff_not]
  exact BareState.ne_of_lt h

lemma supportPhase_count (ns : Nightshade) (s : State) (states2 : List State)
    (own2 : State) (bsc1 : Nat) (r : NSResult) (ns' : Nightshade)
    (h : supportPhase ns s states2 own2 bsc1 = Except.ok (r, ns'))
    (h2 : states2.get? ns.owner_id = some own2)
    (hall : ∀ st ∈ states2, BareState.le st.bare_state own2.bare_state)
    (hc2 : states2.countP (stateMatches own2) =
      (if s.bare_state = own2.bare_state then bsc1 + 1 else bsc1)) :
    ∃ ownF, ns'.states.get? ns.owner_id = some ownF ∧
      ns'.states.countP (stateMatches ownF) = ns'.best_state_counter := by
  obtain ⟨ownF, statesF, hr, ho, hn, ha, hsn, hst, hcm, hbr⟩ :=
    supportPhase_ok _ _ _ _ _ _ _ h
  rcases hbr with ⟨hF, hS, hb⟩ | ⟨proof, hcp, hF, hS, hb⟩
  · refine ⟨ownF, by rw [hst, hS, hF]; exact h2, ?_⟩
    rw [hst, hS, hF, hb]
    exact hc2
  · refine ⟨ownF, by rw [hst, hS]; exact get?_set_self _ _ _ (lt_length_of_get?_eq_some h2),
      ?_⟩
    rw [hst, hS, hb]
    have hlt : BareState.lt own2.bare_state ownF.bare_state := by
      rw [hF]; exact BareState.lt_increase own2 proof
    have hzero : states2.countP (stateMatches ownF) = 0 := by
      rw [List.countP_eq_zero]
      intro st hstm
      simp only [stateMatches, decide_eq_true_eq]
      exact BareState.ne_of_lt (BareState.lt_of_le_of_lt (hall st hstm) hlt)
    have hadd := countP_set_add states2 ns.owner_id ownF own2 (stateMatches ownF) h2
    have hm_own2 : stateMatches ownF own2 = false := stateMatches_false_of_lt _ _ hlt
    have hm_self : stateMatches ownF ownF = true := by simp [stateMatches]
    rw [hzero, hm_own2, hm_self] at hadd
    simpa using hadd

lemma mem_of_get?_eq_some {α : Type} {l : List α} {n : Nat} {a : α}
    (h : l.get? n = some a) : a ∈ l := by
  induction l generalizing n with
  | nil => simp at h
  | cons x t ih =>
    cases n with
    | zero =>
      simp only [List.get?_cons_zero, Option.some.injEq] at h
      rw [← h]
      exact List.mem_cons_self _ _
    | succ m =>
      simp only [List.get?_cons_succ] at h
      exact List.mem_cons_of_mem _ (ih h)

lemma mainUpdate_count (ns : Nightshade) (aid : Nat) (s : State) (r : NSResult)
    (ns' : Nightshade) (OP recorded : State)
    (h : mainUpdate ns aid s = Except.ok (r, ns'))
    (hne : aid ≠ ns.owner_id)
    (hOP : ns.states.get? ns.owner_id = some OP)
    (hrec : ns.states.get? aid = some recorded)
    (hlt : BareState.lt recorded.bare_state s.bare_state)
    (hall : ∀ st ∈ ns.states, BareState.le st.bare_state OP.bare_state)
    (hcount : ns.states.countP (stateMatches OP) = ns.best_state_counter) :
    ∃ ownF, ns'.states.get? ns.owner_id = some ownF ∧
      ns'.states.countP (stateMatches ownF) = ns'.best_state_counter := by
  obtain ⟨own, heq, hcase⟩ := mainUpdate_ok_cases ns aid s r ns' h
  have heq' : (ns.states.set aid s).get? ns.owner_id = ns.states.get? ns.owner_id :=
    get?_set_other _ _ _ _ hne
  have h2 : (ns.states.set aid s).get? ns.owner_id = some OP := by rw [heq', hOP]
  have hOPown : OP = own := by
    rw [h2] at heq
    injection heq
  subst hOPown
  rcases hcase with ⟨hbare, hsp⟩ | ⟨hbare, hsp⟩
  · -- the merge left the own state unchanged
    have hs_le : BareState.le s.bare_state OP.bare_state := by
      have := le_merge_right OP s
      rw [hbare] at this
      exact this
    have hmrec : stateMatches OP recorded = false := by
      simp only [stateMatches, decide_eq_false_iff_not]
      intro he
      rw [he] at hlt
      exact BareState.lt_irrefl _ (BareState.lt_of_lt_of_le hlt hs_le)
    have hadd := countP_set_add ns.states aid s recorded (stateMatches OP) hrec
    rw [hcount, hmrec] at hadd
    have hc2 : (ns.states.set aid s).countP (stateMatches OP) =
        (if s.bare_state = OP.bare_state then ns.best_state_counter + 1
          else ns.best_state_counter) := by
      by_cases hbs : s.bare_state = OP.bare_state
      · have : stateMatches OP s = true := by simp [stateMatches, hbs]
        rw [this] at hadd
        rw [if_pos hbs]
        simp at hadd
        omega
      · have : stateMatches OP s = false := by simp [stateMatches, hbs]
        rw [this] at hadd
        rw [if_neg hbs]
        simp at hadd
        omega
    have hall1 : ∀ st ∈ ns.states.set aid s, BareState.le st.bare_state OP.bare_state := by
      intro st hstm
      rcases List.mem_or_eq_of_mem_set hstm with hmem | hF2
      · exact hall st hmem
      · rw [hF2]; exact hs_le
    exact supportPhase_count _ _ _ _ _ _ _ hsp h2 hall1 hc2
  · -- the merge strictly improved the own state
    have hltOP : BareState.lt OP.bare_state (merge OP s).bare_state :=
      BareState.lt_of_le_of_ne (le_merge_left OP s) (Ne.symm hbare)
    have hq_OP : stateMatches (merge OP s) OP = false := stateMatches_false_of_lt _ _ hltOP
    have hq_rec : stateMatches (merge OP s) recorded = false :=
      stateMatches_false_of_lt _ _
        (BareState.lt_of_le_of_lt (hall recorded (mem_of_get?_eq_some hrec)) hltOP)
    have hzero : ns.states.countP (stateMatches (merge OP s)) = 0 := by
      rw [List.countP_eq_zero]
      intro st hstm
      simp only [stateMatches, decide_eq_true_eq]
      exact BareState.ne_of_lt (BareState.lt_of_le_of_lt (hall st hstm) hltOP)
    have hadd1 := countP_set_add ns.states aid s recorded (stateMatches (merge OP s)) hrec
    rw [hzero, hq_rec] at hadd1
    have hadd2 := countP_set_add (ns.states.set aid s) ns.owner_id (merge OP s) OP
      (stateMatches (merge OP s)) h2
    rw [hq_OP] at hadd2
    have hq_self : stateMatches (merge OP s) (merge OP s) = true := by simp [stateMatches]
    rw [hq_self] at hadd2
    have hc2 : ((ns.states.set aid s).set ns.owner_id (merge OP s)).countP
        (stateMatches (merge OP s)) =
        (if s.bare_state = (merge OP s).bare_state then 1 + 1 else 1) := by
      rw [ite_bool_false, ite_bool_true] at hadd2
      by_cases hbs : s.bare_state = (merge OP s).bare_state
      · have : stateMatches (merge OP s) s = true := by simp [stateMatches, hbs]
        rw [this, ite_bool_false, ite_bool_true] at hadd1
        rw [if_pos hbs]
        omega
      · have : stateMatches (merge OP s) s = false := by simp [stateMatches, hbs]
        rw [this, ite_bool_false] at hadd1
        rw [if_neg hbs]
        omega
    have h2m : ((ns.states.set aid s).set ns.owner_id (merge OP s)).get? ns.owner_id =
        some (merge OP s) := get?_set_self _ _ _ (lt_length_of_get?_eq_some h2)
    have hall2 : ∀ st ∈ (ns.states.set aid s).set ns.owner_id (merge OP s),
        BareState.le st.bare_state (merge OP s).bare_state := by
      intro st hstm
      rcases List.mem_or_eq_of_mem_set hstm with hmem | hF2
      · rcases List.mem_or_eq_of_mem_set hmem with hmem2 | hF3
        · exact BareState.le_trans (hall st hmem2) (le_merge_left OP s)
        · rw [hF3]; exact le_merge_right OP s
      · rw [hF2]; exact BareState.le_refl _
    exact supportPhase_count _ _ _ _ _ _ _ hsp h2m hall2 hc2

/-! ## Direct evaluations of `update_state` branches -/

lemma updateState_adv (ms : Nightshade) (aid : Nat) (s' : State) (rec : State)
    (htrue : ms.is_adversary.get? aid = some true)
    (hrec : ms.states.get? aid = some rec) :
    updateState ms aid s' = Except.ok
      (NSResult.Error "Not processing adversaries updates",
        { ms with is_adversary := ms.is_adversary.set aid true }) := by
  unfold updateState
  rw [htrue, hrec]
  simp

lemma updateState_stale (ms : Nightshade) (aid : Nat) (s : State) (adv : Bool) (rec : State)
    (h1 : ms.is_adversary.get? aid = some adv) (h2 : ms.states.get? aid = some rec)
    (hadv : adv = false) (hinc : incompatibleStates rec s = false)
    (hgt : bareGtB s.bare_state rec.bare_state = false) :
    updateState ms aid s = Except.ok (NSResult.Updated none, seenInsert ms s.bare_state) := by
  unfold updateState
  rw [h1, h2]
  simp [hadv, hinc, State.verify, hgt]

lemma mainUpdate_get_other (ns : Nightshade) (aid : Nat) (s : State) (r : NSResult)
    (ns' : Nightshade) (h : mainUpdate ns aid s = Except.ok (r, ns'))
    (j : Nat) (hj : j ≠ ns.owner_id) :
    ns'.states.get? j = (ns.states.set aid s).get? j := by
  obtain ⟨own, heq, hcase⟩ := mainUpdate_ok_cases ns aid s r ns' h
  have hjo : ns.owner_id ≠ j := Ne.symm hj
  rcases hcase with ⟨hbare, hsp⟩ | ⟨hbare, hsp⟩
  · obtain ⟨ownF, statesF, _, _, _, _, _, hst, _, hbr⟩ := supportPhase_ok _ _ _ _ _ _ _ hsp
    rcases hbr with ⟨hF, hS, hb⟩ | ⟨proof, hcp, hF, hS, hb⟩
    · rw [hst, hS]
    · rw [hst, hS, get?_set_other _ _ _ _ hjo]
  · obtain ⟨ownF, statesF, _, _, _, _, _, hst, _, hbr⟩ := supportPhase_ok _ _ _ _ _ _ _ hsp
    rcases hbr with ⟨hF, hS, hb⟩ | ⟨proof, hcp, hF, hS, hb⟩
    · rw [hst, hS, get?_set_other _ _ _ _ hjo]
    · rw [hst, hS, get?_set_other _ _ _ _ hjo, get?_set_other _ _ _ _ hjo]

lemma mainUpdate_self_shape (ms : Nightshade) (aid : Nat) (s : State) (r : NSResult)
    (ns' : Nightshade) (h : mainUpdate ms aid s = Except.ok (r, ns'))
    (haid : aid = ms.owner_id) :
    ∃ ownF, ns'.states.get? ms.owner_id = some ownF ∧
      (ownF = s ∨ ∃ pr, ownF = s.increase_confidence pr) := by
  obtain ⟨own, heq, hcase⟩ := mainUpdate_ok_cases ms aid s r ns' h
  have hlt := lt_length_of_get?_eq_some heq
  have hown_s : own = s := by
    rw [← haid] at heq
    rw [get?_set_self _ _ _ (by rw [haid]; simpa using hlt)] at heq
    injection heq with hh
    exact hh.symm
  subst hown_s
  rcases hcase with ⟨hbare, hsp⟩ | ⟨hbare, hsp⟩
  · obtain ⟨ownF, statesF, _, _, _, _, _, hst, _, hbr⟩ := supportPhase_ok _ _ _ _ _ _ _ hsp
    rcases hbr with ⟨hF, hS, hb⟩ | ⟨proof, hcp, hF, hS, hb⟩
    · refine ⟨ownF, ?_, Or.inl hF⟩
      rw [hst, hS, hF]
      exact heq
    · refine ⟨ownF, ?_, Or.inr ⟨proof, hF⟩⟩
      rw [hst, hS]
      exact get?_set_self _ _ _ hlt
  · exfalso
    rw [merge_self] at hbare
    exact hbare rfl

lemma updateState_twice (ns : Nightshade) (aid : Nat) (s : State) (r1 : NSResult)
    (ns1 : Nightshade) (h : updateState ns aid s = Except.ok (r1, ns1)) :
    ∃ r2, updateState ns1 aid s = Except.ok (r2, ns1) ∧
      (∀ o, r1 = NSResult.Updated o → r2 = NSResult.Updated none) ∧
      (∀ msg, r1 = NSResult.Error msg → r2 = NSResult.Error msg) := by
  obtain ⟨adv, recorded, h1, h2, hcase⟩ := updateState_ok_cases ns aid s r1 ns1 h
  rcases hcase with ⟨hc, hrr, hns'⟩ | ⟨hadv, hinc, hgt, hrr, hns'⟩ | ⟨hadv, hinc, hgt, hmain⟩
  · -- the first call rejected the peer as adversary; so does the second
    refine ⟨NSResult.Error "Not processing adversaries updates", ?_, ?_, ?_⟩
    · have htrue : ns1.is_adversary.get? aid = some true := by
        rw [hns']
        exact get?_set_self _ _ _ (lt_length_of_get?_eq_some h1)
      have hrec1 : ns1.states.get? aid = some recorded := by
        rw [hns']; exact h2
      rw [updateState_adv ns1 aid s recorded htrue hrec1]
      have hset : ns1.is_adversary.set aid true = ns1.is_adversary := by
        rw [hns']
        show (ns.is_adversary.set aid true).set aid true = ns.is_adversary.set aid true
        simp
      rw [hset]
    · intro o ho
      rw [hrr] at ho
      exact NSResult.noConfusion ho
    · intro msg hmsg
      rw [hrr] at hmsg
      injection hmsg with hm
      rw [hm]
  · -- the first call was stale; the second is identical
    refine ⟨NSResult.Updated none, ?_, fun o ho2 => rfl, ?_⟩
    · have h1' : ns1.is_adversary.get? aid = some adv := by
        rw [hns', seenInsert_adv]; exact h1
      have h2' : ns1.states.get? aid = some recorded := by
        rw [hns', seenInsert_states]; exact h2
      rw [updateState_stale ns1 aid s adv recorded h1' h2' hadv hinc hgt]
      have hmem : s.bare_state ∈ ns1.seen_bare_states := by
        rw [hns']; exact mem_seenInsert ns s.bare_state
      rw [seenInsert_of_mem ns1 s.bare_state hmem]
    · intro msg hmsg
      rw [hrr] at hmsg
      exact NSResult.noConfusion hmsg
  · -- the first call absorbed the state; the second is stale
    obtain ⟨own, ownF, heq, ho, hn, ha, hsn, hlen, hget, hr2, hle, hcm⟩ :=
      mainUpdate_own _ _ _ _ _ hmain
    rw [seenInsert_owner] at ho hget
    rw [seenInsert_adv] at ha
    have h1' : ns1.is_adversary.get? aid = some adv := by rw [ha]; exact h1
    have hmem : s.bare_state ∈ ns1.seen_bare_states := by
      rw [hsn]; exact mem_seenInsert ns s.bare_state
    by_cases haid : aid = ns.owner_id
    · obtain ⟨ownF2, hget2, hshape⟩ := mainUpdate_self_shape _ _ _ _ _ hmain
        (by rw [seenInsert_owner]; exact haid)
      rw [seenInsert_owner] at hget2
      have h2' : ns1.states.get? aid = some ownF2 := by rw [haid]; exact hget2
      have hinc2 : incompatibleStates ownF2 s = false := by
        rcases hshape with hFs | ⟨pr, hFi⟩
        · rw [hFs]; exact incompatible_self_false s
        · rw [hFi]; exact incompatible_increase_false s pr
      have hgt2 : bareGtB s.bare_state ownF2.bare_state = false := by
        rcases hshape with hFs | ⟨pr, hFi⟩
        · rw [hFs]; exact bareGtB_self_false _
        · rw [hFi]; exact bareGtB_increase_false s pr
      refine ⟨NSResult.Updated none, ?_, fun o ho2 => rfl, ?_⟩
      · rw [updateState_stale ns1 aid s adv ownF2 h1' h2' hadv hinc2 hgt2,
          seenInsert_of_mem ns1 s.bare_state hmem]
      · intro msg hmsg
        rw [hr2] at hmsg
        exact NSResult.noConfusion hmsg
    · have h2' : ns1.states.get? aid = some s := by
        have hoth := mainUpdate_get_other _ _ _ _ _ hmain aid
          (by rw [seenInsert_owner]; exact haid)
        rw [seenInsert_states] at hoth
        rw [hoth]
        exact get?_set_self _ _ _ (lt_length_of_get?_eq_some h2)
      refine ⟨NSResult.Updated none, ?_, fun o ho2 => rfl, ?_⟩
      · rw [updateState_stale ns1 aid s adv s h1' h2' hadv (incompatible_self_false s)
          (bareGtB_self_false _), seenInsert_of_mem ns1 s.bare_state hmem]
      · intro msg hmsg
        rw [hr2] at hmsg
        exact NSResult.noConfusion hmsg

/-! ## Out-of-bounds behaviour -/

lemma commitPhase_ne_oob (ns : Nightshade) (own : State) :
    commitPhase ns own ≠ Except.error Fault.outOfBounds := by
  unfold commitPhase
  split
  · split
    · split
      · simp
      · simp
    · simp
  · simp

lemma supportPhase_ne_oob (ns : Nightshade) (s : State) (states2 : List State)
    (own2 : State) (bsc1 : Nat) (hlen : ns.num_authorities ≤ states2.length) :
    supportPhase ns s states2 own2 bsc1 ≠ Except.error Fault.outOfBounds := by
  simp only [supportPhase]
  generalize (if s.bare_state = own2.bare_state then bsc1 + 1 else bsc1) = bsc2
  split
  · split
    · rename_i heqcp
      unfold collectProof at heqcp
      rw [if_pos hlen] at heqcp
      exact fun _ => Option.noConfusion heqcp
    · exact commitPhase_ne_oob _ _
  · exact commitPhase_ne_oob _ _

lemma mainUpdate_ne_oob (ns : Nightshade) (aid : Nat) (s : State)
    (howner : ns.owner_id < ns.states.length)
    (hn : ns.num_authorities ≤ ns.states.length) :
    mainUpdate ns aid s ≠ Except.error Fault.outOfBounds := by
  simp only [mainUpdate]
  split
  · rename_i heq
    rw [List.get?_eq_none] at heq
    simp only [List.length_set] at heq
    omega
  · split
    · exact supportPhase_ne_oob _ _ _ _ _ (by simpa using hn)
    · exact supportPhase_ne_oob _ _ _ _ _ (by simpa using hn)

lemma updateState_oob_iff (ns : Nightshade) (aid : Nat) (s : State)
    (hl1 : ns.states.length = ns.num_authorities)
    (hl2 : ns.is_adversary.length = ns.num_authorities)
    (howner : ns.owner_id < ns.num_authorities) :
    updateState ns aid s = Except.error Fault.outOfBounds ↔ ns.num_authorities ≤ aid := by
  constructor
  · intro h
    by_contra hlt
    push_neg at hlt
    cases hA : ns.is_adversary.get? aid with
    | none =>
      have := List.get?_eq_none.mp hA
      omega
    | some adv =>
      cases hB : ns.states.get? aid with
      | none =>
        have := List.get?_eq_none.mp hB
        omega
      | some rec =>
        unfold updateState at h
        rw [hA, hB] at h
        dsimp only at h
        split at h
        · exact Except.noConfusion h
        · split at h
          · split at h
            · refine mainUpdate_ne_oob _ aid s ?_ ?_ h
              · rw [seenInsert_states, seenInsert_owner, hl1]
                exact howner
              · rw [seenInsert_states, seenInsert_num, hl1]
            · exact Except.noConfusion h
          · exact Except.noConfusion h
  · intro hge
    unfold updateState
    rw [List.get?_eq_none.mpr (by omega), List.get?_eq_none.mpr (by omega)]

instance {ε α : Type} [DecidableEq ε] [DecidableEq α] : DecidableEq (Except ε α) := fun a b =>
  match a, b with
  | Except.error e, Except.error f =>
    if h : e = f then Decidable.isTrue (by rw [h])
    else Decidable.isFalse (fun hc => h (by injection hc))
  | Except.error _, Except.ok _ => Decidable.isFalse (fun hc => Except.noConfusion hc)
  | Except.ok _, Except.error _ => Decidable.isFalse (fun hc => Except.noConfusion hc)
  | Except.ok x, Except.ok y =>
    if h : x = y then Decidable.isTrue (by rw [h])
    else Decidable.isFalse (fun hc => h (by injection hc))

/-! ## The support counter on fresh instances -/

lemma countP_range_eqOne (owner_id n : Nat) (h : owner_id < n) :
    (List.range n).countP (fun i => decide (i = owner_id)) = 1 := by
  induction n with
  | zero => omega
  | succ m ih =>
    rw [List.range_succ, List.countP_append]
    by_cases hm : owner_id < m
    · rw [ih hm]
      have hz : List.countP (fun i => decide (i = owner_id)) [m] = 0 := by
        simp only [List.countP_cons, List.countP_nil]
        have : (m = owner_id) = False := by simp; omega
        simp [this]
      rw [hz]
    · have howner : owner_id = m := by omega
      have hz : (List.range m).countP (fun i => decide (i = owner_id)) = 0 := by
        rw [List.countP_eq_zero]
        intro i hi
        simp only [decide_eq_true_eq]
        have := List.mem_range.mp hi
        omega
      rw [hz]
      simp [howner]

lemma count_new (owner_id n : Nat) (h : owner_id < n) :
    (Nightshade.new owner_id n).states.countP
      (stateMatches (ownStateD (Nightshade.new owner_id n))) = 1 := by
  have hD : ownStateD (Nightshade.new owner_id n) = State.new owner_id := by
    unfold ownStateD
    rw [new_ownStateD owner_id n h]
    rfl
  rw [hD]
  show ((List.range n).map
    (fun i => if i = owner_id then State.new i else State.empty)).countP
    (stateMatches (State.new owner_id)) = 1
  rw [List.countP_map]
  have hfun : (stateMatches (State.new owner_id)) ∘
      (fun i => if i = owner_id then State.new i else State.empty) =
      (fun i => decide (i = owner_id)) := by
    funext i
    by_cases hio : i = owner_id
    · simp [hio, stateMatches]
    · have hno : (if i = owner_id then State.new i else State.empty).bare_state ≠
          (State.new owner_id).bare_state := by
        rw [if_neg hio]
        intro hcon
        have := congrArg BareState.confidence0 hcon
        simp [State.empty, State.new, BareState.empty, BareState.new] at this
      show stateMatches (State.new owner_id)
          (if i = owner_id then State.new i else State.empty) = decide (i = owner_id)
      simp only [stateMatches]
      rw [decide_eq_false hno, decide_eq_false hio]
  rw [hfun]
  exact countP_range_eqOne owner_id n h

lemma bestCountIdx_eq (ns : Nightshade) (hlen : ns.states.length = ns.num_authorities) :
    bestCountIdx ns = ns.states.countP (stateMatches (ownStateD ns)) := by
  unfold bestCountIdx
  rw [← hlen, countP_range_getD]

lemma reachablePeer_toReachable (ns : Nightshade) (h : ReachablePeer ns) : Reachable ns := by
  induction h with
  | init owner_id n howner => exact Reachable.init owner_id n howner
  | step ns aid s r ns' hr hne hstep ih => exact Reachable.step ns aid s r ns' ih hstep

lemma updateState_count (ns : Nightshade) (aid : Nat) (s : State) (r : NSResult)
    (ns' : Nightshade) (hinv : NsInv ns) (hne : aid ≠ ns.owner_id)
    (h : updateState ns aid s = Except.ok (r, ns'))
    (hcount : ns.states.countP (stateMatches (ownStateD ns)) = ns.best_state_counter) :
    ns'.states.countP (stateMatches (ownStateD ns')) = ns'.best_state_counter := by
  obtain ⟨how, hnu, _, _, _, _, _, _⟩ := updateState_step_master ns aid s r ns' h
  obtain ⟨OP, hOP, hD⟩ := nsInv_own ns hinv
  obtain ⟨hl1, hl2, howner, hall⟩ := hinv
  obtain ⟨adv, recorded, h1, h2, hcase⟩ := updateState_ok_cases ns aid s r ns' h
  rcases hcase with ⟨hc, hrr, hns'⟩ | ⟨hadv, hinc, hgt, hrr, hns'⟩ | ⟨hadv, hinc, hgt, hmain⟩
  · have hst : ns'.states = ns.states := by rw [hns']
    have hbc : ns'.best_state_counter = ns.best_state_counter := by rw [hns']
    have hD' : ownStateD ns' = ownStateD ns := by unfold ownStateD; rw [hst, how]
    rw [hst, hbc, hD']
    exact hcount
  · have hst : ns'.states = ns.states := by rw [hns', seenInsert_states]
    have hbc : ns'.best_state_counter = ns.best_state_counter := by
      rw [hns', seenInsert_best]
    have hD' : ownStateD ns' = ownStateD ns := by unfold ownStateD; rw [hst, how]
    rw [hst, hbc, hD']
    exact hcount
  · have hlt := (bareGtB_true_iff _ _).mp hgt
    have hOP1 : (seenInsert ns s.bare_state).states.get?
        (seenInsert ns s.bare_state).owner_id = some OP := by
      rw [seenInsert_states, seenInsert_owner]; exact hOP
    have hrec1 : (seenInsert ns s.bare_state).states.get? aid = some recorded := by
      rw [seenInsert_states]; exact h2
    have hall1 : ∀ st ∈ (seenInsert ns s.bare_state).states,
        BareState.le st.bare_state OP.bare_state := by
      rw [seenInsert_states]
      intro st hstm
      rw [← hD]
      exact hall st hstm
    have hcount1 : (seenInsert ns s.bare_state).states.countP (stateMatches OP) =
        (seenInsert ns s.bare_state).best_state_counter := by
      rw [seenInsert_states, seenInsert_best, ← hD]
      exact hcount
    have hne1 : aid ≠ (seenInsert ns s.bare_state).owner_id := by
      rw [seenInsert_owner]; exact hne
    obtain ⟨ownF, hget, hcnt⟩ := mainUpdate_count _ _ _ _ _ OP recorded hmain hne1
      hOP1 hrec1 hlt hall1 hcount1
    rw [seenInsert_owner] at hget
    have hD' : ownStateD ns' = ownF := by
      unfold ownStateD
      rw [how, hget]
      rfl
    rw [hD']
    exact hcnt

lemma reachablePeer_count (ns : Nightshade) (h : ReachablePeer ns) :
    ns.states.countP (stateMatches (ownStateD ns)) = ns.best_state_counter := by
  induction h with
  | init owner_id n howner => exact count_new owner_id n howner
  | step ns aid s r ns' hr hne hstep ih =>
    exact updateState_count ns aid s r ns'
      (reachable_inv ns (reachablePeer_toReachable ns hr)) hne hstep ih

lemma updateState_screen (ms : Nightshade) (aid : Nat) (s : State) (adv : Bool) (rec : State)
    (h1 : ms.is_adversary.get? aid = some adv) (h2 : ms.states.get? aid = some rec)
    (hcond : (adv || incompatibleStates rec s) = true) :
    updateState ms aid s = Except.ok
      (NSResult.Error "Not processing adversaries updates",
        { ms with is_adversary := ms.is_adversary.set aid true }) := by
  unfold updateState
  rw [h1, h2]
  dsimp only
  rw [if_pos hcond]

/-! ## The claims -/

/-- C1, counterexample: on the instance `new 0 2`, after the update
`(1, (endorses 0, c0 3, c1 0))` the owner commits to 0; the further
compatible update `(1, (endorses 1, c0 5, c1 3))` keeps `committed = Some 0`
but moves the own endorsement to 1. So `states[owner_id].endorses() = e`
does not hold forever after committing. -/
theorem C1_counterexample :
    ((updateState (Nightshade.new 0 2) 1 ⟨⟨0, 3, 0⟩, none, none⟩).bind (fun p =>
        updateState p.2 1 ⟨⟨1, 5, 3⟩, none, none⟩)).map (fun p =>
      (p.2.committed, (p.2.states.get? p.2.owner_id).map State.endorses)) =
    Except.ok ((some 0 : Option Nat), (some 1 : Option Nat)) := by decide

/-- C1, amended: once `committed = Some(e)` it never changes on any later
successful `update_state` call; and at the moment `committed` is first set,
`states[owner_id].endorses() = e`.  The own endorsement may diverge from `e`
afterwards. -/
theorem C1_amended_committed_latch (ns : Nightshade) (aid : Nat) (s : State)
    (r : NSResult) (ns' : Nightshade)
    (h : updateState ns aid s = Except.ok (r, ns')) :
    (∀ e, ns.committed = some e → ns'.committed = some e) ∧
    (ns.committed = none → ∀ e, ns'.committed = some e →
      (ns'.states.get? ns'.owner_id).map State.endorses = some e) :=
  ⟨(updateState_step_master ns aid s r ns' h).2.2.2.2.2.1,
   (updateState_step_master ns aid s r ns' h).2.2.2.2.2.2.1⟩

/-- C1, witness for the amended theorem at a concrete input. -/
theorem C1_amended_witness :
    updateState (Nightshade.new 0 2) 1 State.empty = Except.ok (NSResult.Updated none,
      { Nightshade.new 0 2 with seen_bare_states := [BareState.empty] }) ∧
    ((∀ e, (Nightshade.new 0 2).committed = some e →
        ({ Nightshade.new 0 2 with
            seen_bare_states := [BareState.empty] } : Nightshade).committed = some e) ∧
      ((Nightshade.new 0 2).committed = none → ∀ e,
        ({ Nightshade.new 0 2 with
            seen_bare_states := [BareState.empty] } : Nightshade).committed = some e →
        (({ Nightshade.new 0 2 with
            seen_bare_states := [BareState.empty] } : Nightshade).states.get?
          ({ Nightshade.new 0 2 with
            seen_bare_states := [BareState.empty] } : Nightshade).owner_id).map
          State.endorses = some e)) :=
  ⟨by decide, C1_amended_committed_latch (Nightshade.new 0 2) 1 State.empty
    (NSResult.Updated none)
    { Nightshade.new 0 2 with seen_bare_states := [BareState.empty] } (by decide)⟩

/-- C2, counterexample: a stale update whose bare state was never seen
before still inserts that bare state into `seen_bare_states`, so some field
of the instance does change. -/
theorem C2_counterexample :
    updateState (Nightshade.new 0 2) 1 State.empty =
      Except.ok (NSResult.Updated none,
        { Nightshade.new 0 2 with seen_bare_states := [BareState.empty] }) ∧
    ({ Nightshade.new 0 2 with seen_bare_states := [BareState.empty] } : Nightshade) ≠
      Nightshade.new 0 2 := by
  constructor
  · decide
  · decide

/-- C2, amended: a stale update that passes the adversary screen returns
`Updated(None)`; `states`, `is_adversary`, `best_state_counter` and
`committed` are unchanged, and `seen_bare_states` gains the bare state of
the update when it was not already present (it is unchanged otherwise). -/
theorem C2_amended_stale_no_change (ns : Nightshade) (aid : Nat) (s : State) (adv : Bool)
    (rec : State) (h1 : ns.is_adversary.get? aid = some adv)
    (h2 : ns.states.get? aid = some rec) (hadv : adv = false)
    (hinc : incompatibleStates rec s = false)
    (hstale : bareGtB s.bare_state rec.bare_state = false) :
    updateState ns aid s = Except.ok (NSResult.Updated none, seenInsert ns s.bare_state) ∧
    (seenInsert ns s.bare_state).states = ns.states ∧
    (seenInsert ns s.bare_state).is_adversary = ns.is_adversary ∧
    (seenInsert ns s.bare_state).best_state_counter = ns.best_state_counter ∧
    (seenInsert ns s.bare_state).committed = ns.committed :=
  ⟨updateState_stale ns aid s adv rec h1 h2 hadv hinc hstale,
    seenInsert_states ns s.bare_state, seenInsert_adv ns s.bare_state,
    seenInsert_best ns s.bare_state, seenInsert_committed ns s.bare_state⟩

/-- C2, witness for the amended theorem at a concrete input. -/
theorem C2_amended_witness :
    (Nightshade.new 0 2).is_adversary.get? 1 = some false ∧
    (Nightshade.new 0 2).states.get? 1 = some State.empty ∧
    incompatibleStates State.empty State.empty = false ∧
    bareGtB State.empty.bare_state State.empty.bare_state = false ∧
    (updateState (Nightshade.new 0 2) 1 State.empty =
      Except.ok (NSResult.Updated none,
        seenInsert (Nightshade.new 0 2) State.empty.bare_state) ∧
    (seenInsert (Nightshade.new 0 2) State.empty.bare_state).states =
      (Nightshade.new 0 2).states ∧
    (seenInsert (Nightshade.new 0 2) State.empty.bare_state).is_adversary =
      (Nightshade.new 0 2).is_adversary ∧
    (seenInsert (Nightshade.new 0 2) State.empty.bare_state).best_state_counter =
      (Nightshade.new 0 2).best_state_counter ∧
    (seenInsert (Nightshade.new 0 2) State.empty.bare_state).committed =
      (Nightshade.new 0 2).committed) :=
  ⟨by decide, by decide, by decide, by decide,
    C2_amended_stale_no_change (Nightshade.new 0 2) 1 State.empty false State.empty
      (by decide) (by decide) (by decide) (by decide) (by decide)⟩

/-- C3, counterexample: a self-update (`from = owner_id`) is accepted by the
code and double-counts the owner: on `new 0 4` after
`update_state(0, (endorses 0, c0 1, c1 0))` the counter is 2 but only one
authority index matches the own state. -/
theorem C3_counterexample :
    (updateState (Nightshade.new 0 4) 0 ⟨⟨0, 1, 0⟩, none, none⟩).map (fun p =>
      (p.2.best_state_counter, bestCountIdx p.2)) = Except.ok ((2 : Nat), (1 : Nat)) := by
  decide

/-- C3, amended: on every instance reachable with updates that all name a
peer other than the owner (`from ≠ owner_id`), the number of authority
indices whose recorded state equals the own state is exactly
`best_state_counter`. -/
theorem C3_amended_support_counter (ns : Nightshade) (h : ReachablePeer ns) :
    bestCountIdx ns = ns.best_state_counter := by
  obtain ⟨hl1, _, _, _⟩ := reachable_inv ns (reachablePeer_toReachable ns h)
  rw [bestCountIdx_eq ns hl1]
  exact reachablePeer_count ns h

/-- C3, witness for the amended theorem at a concrete instance. -/
theorem C3_amended_witness :
    ReachablePeer (Nightshade.new 0 2) ∧
    bestCountIdx (Nightshade.new 0 2) = (Nightshade.new 0 2).best_state_counter :=
  ⟨ReachablePeer.init 0 2 (by omega),
    C3_amended_support_counter _ (ReachablePeer.init 0 2 (by omega))⟩

/-- C4: own primary confidence never decreases across a successful
`update_state` call. -/
theorem C4_own_confidence0_monotone (ns : Nightshade) (aid : Nat) (s : State)
    (r : NSResult) (ns' : Nightshade)
    (h : updateState ns aid s = Except.ok (r, ns')) :
    ownC0 ns ≤ ownC0 ns' :=
  (updateState_step_master ns aid s r ns' h).2.2.2.2.1

/-- C4, witness at a concrete input. -/
theorem C4_witness :
    updateState (Nightshade.new 0 2) 1 State.empty = Except.ok (NSResult.Updated none,
      { Nightshade.new 0 2 with seen_bare_states := [BareState.empty] }) ∧
    ownC0 (Nightshade.new 0 2) ≤
      ownC0 { Nightshade.new 0 2 with seen_bare_states := [BareState.empty] } :=
  ⟨by decide, C4_own_confidence0_monotone (Nightshade.new 0 2) 1 State.empty
    (NSResult.Updated none)
    { Nightshade.new 0 2 with seen_bare_states := [BareState.empty] } (by decide)⟩

/-- C5: `merge` is commutative on bare states, `max(a,b) ≤ merge(a,b)` in
the bare-state total order, and the inequality is strict exactly when
`incompatible(a,b)` holds. -/
theorem C5_merge_ordering_laws (a b : State) :
    (merge a b).bare_state = (merge b a).bare_state ∧
    BareState.le (stateMax a b).bare_state (merge a b).bare_state ∧
    (incompatibleStates a b = true ↔
      BareState.lt (stateMax a b).bare_state (merge a b).bare_state) :=
  ⟨merge_comm_bare a b, le_merge_max a b, incompatible_iff_lt a b⟩

/-- C6, counterexample: if the first call already rejects the peer as an
adversary, the second identical call returns the adversary error again, not
`Updated(None)`. -/
theorem C6_counterexample :
    ((updateState (Nightshade.new 0 2) 1 ⟨⟨1, 0, -2⟩, none, none⟩).bind (fun p =>
        updateState p.2 1 ⟨⟨1, 0, -2⟩, none, none⟩)).map (fun p => p.1) =
      Except.ok (NSResult.Error "Not processing adversaries updates") := by decide

/-- C6, amended: repeating a successful `update_state(from, s)` leaves the
instance (in particular the own state) exactly as after the first call, and
whenever the first call returned `Updated(_)` the second returns
`Updated(None)`; a first call that returned the adversary error is answered
by the same error again. -/
theorem C6_amended_idempotent (ns : Nightshade) (aid : Nat) (s : State) (r1 : NSResult)
    (ns1 : Nightshade) (h : updateState ns aid s = Except.ok (r1, ns1)) :
    ∃ r2, updateState ns1 aid s = Except.ok (r2, ns1) ∧
      (∀ o, r1 = NSResult.Updated o → r2 = NSResult.Updated none) ∧
      (∀ msg, r1 = NSResult.Error msg → r2 = NSResult.Error msg) :=
  updateState_twice ns aid s r1 ns1 h

/-- C6, witness for the amended theorem at a concrete input. -/
theorem C6_amended_witness :
    updateState (Nightshade.new 0 2) 1 State.empty = Except.ok (NSResult.Updated none,
      { Nightshade.new 0 2 with seen_bare_states := [BareState.empty] }) ∧
    (∃ r2, updateState
        { Nightshade.new 0 2 with seen_bare_states := [BareState.empty] } 1 State.empty =
        Except.ok (r2,
          { Nightshade.new 0 2 with seen_bare_states := [BareState.empty] }) ∧
      (∀ o, NSResult.Updated none = NSResult.Updated o → r2 = NSResult.Updated none) ∧
      (∀ msg, NSResult.Updated none = NSResult.Error msg → r2 = NSResult.Error msg)) :=
  ⟨by decide, C6_amended_idempotent (Nightshade.new 0 2) 1 State.empty
    (NSResult.Updated none)
    { Nightshade.new 0 2 with seen_bare_states := [BareState.empty] } (by decide)⟩

/-- C7: `can_commit` holds exactly when the primary confidence is at least
the secondary confidence plus `COMMIT_THRESHOLD = 3`; in particular a gap of
2 fails and a gap of 3 succeeds. -/
theorem C7_can_commit_iff (S : State) :
    S.can_commit = true ↔
      S.bare_state.confidence1 + 3 ≤ S.bare_state.confidence0 := by
  simp [State.can_commit, COMMIT_THRESHOLD]

/-- C8: if the peer is already flagged or its new state is incompatible with
its recorded state, `update_state` flags it and returns the adversary error
with no other field change; the flag is sticky under all later successful
calls, and any later call from that peer yields the same error. -/
theorem C8_adversary_screen (ns : Nightshade) (aid : Nat) (s : State) (adv : Bool)
    (rec : State) (h1 : ns.is_adversary.get? aid = some adv)
    (h2 : ns.states.get? aid = some rec)
    (hcond : adv = true ∨ incompatibleStates rec s = true) :
    updateState ns aid s = Except.ok
      (NSResult.Error "Not processing adversaries updates",
        { ns with is_adversary := ns.is_adversary.set aid true }) ∧
    (ns.is_adversary.set aid true).get? aid = some true ∧
    (∀ ms ms' aid2 s' r2, updateState ms aid2 s' = Except.ok (r2, ms') →
      ms.is_adversary.get? aid = some true → ms'.is_adversary.get? aid = some true) ∧
    (∀ ms s' rec2, ms.is_adversary.get? aid = some true → ms.states.get? aid = some rec2 →
      updateState ms aid s' = Except.ok
        (NSResult.Error "Not processing adversaries updates",
          { ms with is_adversary := ms.is_adversary.set aid true })) := by
  have hbor : (adv || incompatibleStates rec s) = true := by
    rcases hcond with hA | hB
    · rw [hA]; rfl
    · rw [hB]; simp
  refine ⟨updateState_screen ns aid s adv rec h1 h2 hbor,
    get?_set_self _ _ _ (lt_length_of_get?_eq_some h1), ?_, ?_⟩
  · intro ms ms' aid2 s' r2 hstep hmark
    exact (updateState_step_master ms aid2 s' r2 ms' hstep).2.2.2.2.2.2.2 aid hmark
  · intro ms s' rec2 hmark hrec2
    exact updateState_adv ms aid s' rec2 hmark hrec2

/-- C8, witness at a concrete equivocation. -/
theorem C8_witness :
    ((Nightshade.new 0 2).is_adversary.get? 1 = some false ∧
      (Nightshade.new 0 2).states.get? 1 = some State.empty ∧
      (false = true ∨ incompatibleStates State.empty ⟨⟨1, 0, -2⟩, none, none⟩ = true)) ∧
    updateState (Nightshade.new 0 2) 1 ⟨⟨1, 0, -2⟩, none, none⟩ = Except.ok
      (NSResult.Error "Not processing adversaries updates",
        { Nightshade.new 0 2 with
            is_adversary := (Nightshade.new 0 2).is_adversary.set 1 true }) :=
  ⟨⟨by decide, by decide, Or.inr (by decide)⟩,
    (C8_adversary_screen (Nightshade.new 0 2) 1 ⟨⟨1, 0, -2⟩, none, none⟩ false State.empty
      (by decide) (by decide) (Or.inr (by decide))).1⟩

/-- C9 (implicit): on every reachable instance, every recorded state is at
most the own state in the bare-state total order. -/
theorem C9_states_le_own (ns : Nightshade) (h : Reachable ns) :
    ∀ st ∈ ns.states, BareState.le st.bare_state (ownStateD ns).bare_state :=
  (reachable_inv ns h).2.2.2

/-- C9, witness at a concrete reachable instance. -/
theorem C9_witness :
    Reachable (Nightshade.new 0 2) ∧
    ∀ st ∈ (Nightshade.new 0 2).states,
      BareState.le st.bare_state (ownStateD (Nightshade.new 0 2)).bare_state :=
  ⟨Reachable.init 0 2 (by omega), C9_states_le_own _ (Reachable.init 0 2 (by omega))⟩

/-- C10 (implicit): on a reachable instance, `update_state` never hits the
out-of-bounds panic when the named authority is in range, and always hits it
when the authority index is at least `num_authorities`. -/
theorem C10_index_safety (ns : Nightshade) (aid : Nat) (s : State) (h : Reachable ns) :
    (aid < ns.num_authorities → updateState ns aid s ≠ Except.error Fault.outOfBounds) ∧
    (ns.num_authorities ≤ aid → updateState ns aid s = Except.error Fault.outOfBounds) := by
  obtain ⟨hl1, hl2, howner, _⟩ := reachable_inv ns h
  constructor
  · intro hlt hcontra
    have := (updateState_oob_iff ns aid s hl1 hl2 howner).mp hcontra
    omega
  · intro hge
    exact (updateState_oob_iff ns aid s hl1 hl2 howner).mpr hge

/-- C10, witness at a concrete instance and an out-of-range index. -/
theorem C10_witness :
    Reachable (Nightshade.new 0 2) ∧
    ((5 < (Nightshade.new 0 2).num_authorities →
        updateState (Nightshade.new 0 2) 5 State.empty ≠ Except.error Fault.outOfBounds) ∧
      ((Nightshade.new 0 2).num_authorities ≤ 5 →
        updateState (Nightshade.new 0 2) 5 State.empty = Except.error Fault.outOfBounds)) :=
  ⟨Reachable.init 0 2 (by omega),
    C10_index_safety (Nightshade.new 0 2) 5 State.empty (Reachable.init 0 2 (by omega))⟩
